import Mathlib

/-!
Shallow embedding of the price-list update-and-consistency core of the
`back_gestionProveedores` backend.

JavaScript numbers are modelled as `Option ℚ` (`none` = `NaN`); the numeric
string grammar accepted by `Number(...)` is modelled for decimal literals
(optional sign, integer part, optional fractional part); exponent, hex and
`Infinity` forms are outside the model, as no code path of the spec's core
depends on them.  JavaScript `String.prototype.trim` is modelled on
`List Char` with `Char.isWhitespace`.  SQL `numeric` values are modelled by
`PgNum` (`NaN` is a valid Postgres `numeric`, equal to itself), nullable
columns by `Option PgNum`, and `IS DISTINCT FROM` by `distinctFrom`.
-/

namespace GestionProveedores

/-- Decidable equality for `Except` results, so that concrete runs of the
model can be checked by `decide`. -/
instance {ε α : Type} [DecidableEq ε] [DecidableEq α] :
    DecidableEq (Except ε α) := fun a b =>
  match a, b with
  | .error e, .error e' =>
      if h : e = e' then .isTrue (by rw [h]) else .isFalse (by simp [h])
  | .ok v, .ok v' =>
      if h : v = v' then .isTrue (by rw [h]) else .isFalse (by simp [h])
  | .error _, .ok _ => .isFalse (by simp)
  | .ok _, .error _ => .isFalse (by simp)

/-- `NaN`-capable JavaScript number: `none` is `NaN`. -/
abbrev JsNumber := Option ℚ

/-- Whitespace predicate used by the model of `String.prototype.trim`. -/
def wsp (c : Char) : Bool := c.isWhitespace

/-- Model of JavaScript `trim` on the character list of a string:
drop leading whitespace, then trailing whitespace. -/
def trimList (l : List Char) : List Char :=
  (l.dropWhile wsp).rdropWhile wsp

/-- Model of `s.trim()` on strings. -/
def jsTrim (s : String) : String := ⟨trimList s.data⟩

/-- Numeric value of a digit list, most significant first. -/
def digitsToNat (l : List Char) : ℕ :=
  l.foldl (fun a c => a * 10 + (c.toNat - '0'.toNat)) 0

/-- Unsigned decimal literal: digits, optionally followed by `.` and digits;
at least one digit overall. -/
def parseUnsigned (l : List Char) : Option ℚ :=
  let ds := l.takeWhile Char.isDigit
  let rest := l.dropWhile Char.isDigit
  match rest with
  | [] => if ds.isEmpty then none else some (mkRat (digitsToNat ds) 1)
  | r :: fs =>
      if r = '.' then
        if fs.all Char.isDigit && !(ds.isEmpty && fs.isEmpty) then
          some (mkRat (digitsToNat ds * 10 ^ fs.length + digitsToNat fs)
            (10 ^ fs.length))
        else none
      else none

/-- `Number(...)` on an already-trimmed character list: empty string is `0`,
optional sign, then an unsigned decimal literal. -/
def jsNumberCore (l : List Char) : Option ℚ :=
  match l with
  | [] => some 0
  | c :: r =>
      if c = '-' then (parseUnsigned r).map (fun q => -q)
      else if c = '+' then parseUnsigned r
      else parseUnsigned (c :: r)

/-- Model of JavaScript `Number(s)` for a string `s`. -/
def jsNumber (s : String) : JsNumber := jsNumberCore (trimList s.data)

/-- `trimmed.replace(/,/g, '')`: remove every comma. -/
def stripCommas (l : List Char) : List Char := l.filter (fun c => c ≠ ',')

/-- A TypeScript `string | null` field that may also be absent. -/
inductive StrField
  | undef
  | null
  | str (s : String)
deriving DecidableEq, Repr

/-- A TypeScript `number | string | null` field that may also be absent.
`num` carries a finite JavaScript number. -/
inductive NumStrField
  | undef
  | null
  | str (s : String)
  | num (q : ℚ)
deriving DecidableEq, Repr

/-- The guard `v !== undefined && v !== null && v !== ''`. -/
def StrField.present : StrField → Bool
  | .undef => false
  | .null => false
  | .str s => s ≠ ""

/-- JavaScript truthiness of a `string | null | undefined` value
(`undefined`, `null` and `''` are falsy). -/
def StrField.truthy : StrField → Bool
  | .undef => false
  | .null => false
  | .str s => s ≠ ""

/-- Payload of a present string field (only used under a `present` guard). -/
def StrField.toStr : StrField → String
  | .str s => s
  | _ => ""

/-- The guard `v !== undefined && v !== null && v !== ''` on a
`number | string | null` field (a number is never `===` the empty string). -/
def NumStrField.present : NumStrField → Bool
  | .undef => false
  | .null => false
  | .str s => s ≠ ""
  | .num _ => true

/-- `normalizeNumber` from `PriceList`'s constructor:
`undefined`/`null`/`''` become `null`; otherwise `Number(v)`, with `NaN`
mapped to `null`. -/
def normalizeNumber : NumStrField → Option ℚ
  | .undef => none
  | .null => none
  | .str s => if s = "" then none else jsNumber s
  | .num q => some q

/-- Raw input record (`PriceListItem` as received by the constructor). -/
structure RawPriceItem where
  COD_PROV : String
  COD_SAP : StrField
  DESCRIP : StrField
  COSTO_UNIT : NumStrField
  DESC1 : NumStrField
  DESC2 : NumStrField
  /-- `PROVEEDOR?: number | null`: `none` is absent, `some none` is `null`. -/
  PROVEEDOR : Option (Option ℚ)
deriving DecidableEq, Repr

/-- Normalized output record produced by `toObject()`. -/
structure PriceListItemN where
  COD_PROV : String
  COD_SAP : Option String
  DESCRIP : Option String
  COSTO_UNIT : Option ℚ
  DESC1 : Option ℚ
  DESC2 : Option ℚ
  PROVEEDOR : Option ℚ
deriving DecidableEq, Repr

/-- ASCII alphanumeric, the JavaScript regex class `[a-zA-Z0-9]`. -/
def alnum (c : Char) : Bool := c.isAlpha || c.isDigit

/-- Character class of the `DESCRIP` regex:
`[a-zA-Z0-9\s.,\-_/()#:+*%<>=^$&]`. -/
def descripChar (c : Char) : Bool :=
  alnum c || c.isWhitespace || ".,-_/()#:+*%<>=^$&".data.contains c

/-- `validateCodProv`: trimmed, non-empty, at most 12 chars, alphanumeric. -/
def validateCodProv (codProv : String) : Except String Unit :=
  let t := trimList codProv.data
  if t.length = 0 then .error "COD_PROV no puede estar vacío"
  else if t.length > 12 then
    .error ("COD_PROV excede el máximo de 12 caracteres (actual: " ++
      toString t.length ++ ")")
  else if !t.all alnum then
    .error "COD_PROV debe ser alfanumérico (solo letras y números)"
  else .ok ()

/-- `validateCodSap`: empty after trim is allowed; otherwise digits only,
at most 6 of them. -/
def validateCodSap (codSap : String) : Except String Unit :=
  let t := trimList codSap.data
  if t.length = 0 then .ok ()
  else if !t.all Char.isDigit then
    .error "COD_SAP debe ser numérico (solo dígitos)"
  else if t.length > 6 then
    .error ("COD_SAP excede el máximo de 6 dígitos (actual: " ++
      toString t.length ++ ")")
  else .ok ()

/-- `validateDescrip`: empty after trim is allowed; otherwise at most
40 chars from the restricted character set. -/
def validateDescrip (descrip : String) : Except String Unit :=
  let t := trimList descrip.data
  if t.length = 0 then .ok ()
  else if t.length > 40 then
    .error ("DESCRIP excede el máximo de 40 caracteres (actual: " ++
      toString t.length ++ ")")
  else if !t.all descripChar then
    .error "DESCRIP debe ser alfanumérico y puede incluir los caracteres básicos"
  else .ok ()

/-- `validateCostoUnit`: for strings, trim, strip thousands-separator commas
and apply `Number(...)`; the value must not be `NaN` (finiteness is implied
by the model) and must be non-negative.  `Number(null)` is `0`,
`Number(undefined)` is `NaN` (both branches are unreachable behind the
constructor's presence guard). -/
def validateCostoUnit : NumStrField → Except String Unit
  | .str s =>
      match jsNumberCore (trimList (stripCommas (trimList s.data))) with
      | none => .error "COSTO_UNIT debe ser un número decimal válido"
      | some q =>
          if q < 0 then .error "COSTO_UNIT no puede ser negativo" else .ok ()
  | .num q => if q < 0 then .error "COSTO_UNIT no puede ser negativo" else .ok ()
  | .null => .ok ()
  | .undef => .error "COSTO_UNIT debe ser un número decimal válido"

/-- Integer-string regex `^-?\d+$`. -/
def intRe (l : List Char) : Bool :=
  match l with
  | '-' :: ds => !ds.isEmpty && ds.all Char.isDigit
  | ds => !ds.isEmpty && ds.all Char.isDigit

/-- The value checks of `validateDescuento` (run on `valor` after the
string/number branch): `Number.isInteger`, `isNaN`, `< 0`, `> 100`. -/
def checkValor (campo : String) (valor : JsNumber) : Except String Unit :=
  match valor with
  | none => .error (campo ++ " debe ser un número entero")
  | some q =>
      if q.den ≠ 1 then .error (campo ++ " debe ser un número entero")
      else if q < 0 then .error (campo ++ " no puede ser negativo")
      else if q > 100 then
        .error (campo ++ " excede el máximo de 3 dígitos (valor máximo: 100)")
      else .ok ()

/-- `validateDescuento`: a string must match `^-?\d+$` after trimming and is
then converted with `Number(...)`; the resulting value must be an integer in
`[0, 100]`.  The `undefined`/`null` branches mirror
`Number.isInteger(undefined) = Number.isInteger(null) = false` and are
unreachable behind the presence guard. -/
def validateDescuento (descuento : NumStrField) (campo : String) :
    Except String Unit :=
  match descuento with
  | .str s =>
      let t := trimList s.data
      if !intRe t then .error (campo ++ " debe ser un número entero")
      else checkValor campo (jsNumberCore (trimList t))
  | .num q => checkValor campo (some q)
  | .undef => .error (campo ++ " debe ser un número entero")
  | .null => .error (campo ++ " debe ser un número entero")

/-- The normalized record built at the end of the constructor. -/
def normalizeItem (d : RawPriceItem) : PriceListItemN where
  COD_PROV := jsTrim d.COD_PROV
  COD_SAP := if d.COD_SAP.truthy then some (jsTrim d.COD_SAP.toStr) else none
  DESCRIP := if d.DESCRIP.truthy then some (jsTrim d.DESCRIP.toStr) else none
  COSTO_UNIT := normalizeNumber d.COSTO_UNIT
  DESC1 := normalizeNumber d.DESC1
  DESC2 := normalizeNumber d.DESC2
  PROVEEDOR := d.PROVEEDOR.join

/-- Domain entity `PriceList` (the spec's "ValidationEntity"): wraps the
normalized data produced by a successful construction. -/
structure PriceList where
  data : PriceListItemN
deriving DecidableEq, Repr

/-- `toObject()`: a plain copy of the normalized record. -/
def PriceList.toObject (p : PriceList) : PriceListItemN := p.data

/-- The `PriceList` constructor: required `COD_PROV`, then field validations
in source order, then normalization.  A thrown `Error` is modelled as
`Except.error` carrying the message. -/
def PriceList.construct (d : RawPriceItem) : Except String PriceList :=
  if d.COD_PROV = "" then .error "COD_PROV es requerido en PriceList"
  else
    match validateCodProv d.COD_PROV with
    | .error e => .error e
    | .ok _ =>
      match (if d.COD_SAP.present then validateCodSap d.COD_SAP.toStr
             else .ok ()) with
      | .error e => .error e
      | .ok _ =>
        match (if d.DESCRIP.present then validateDescrip d.DESCRIP.toStr
               else .ok ()) with
        | .error e => .error e
        | .ok _ =>
          match (if d.COSTO_UNIT.present then validateCostoUnit d.COSTO_UNIT
                 else .ok ()) with
          | .error e => .error e
          | .ok _ =>
            match (if d.DESC1.present then validateDescuento d.DESC1 "DESC1"
                   else .ok ()) with
            | .error e => .error e
            | .ok _ =>
              match (if d.DESC2.present then validateDescuento d.DESC2 "DESC2"
                     else .ok ()) with
              | .error e => .error e
              | .ok _ => .ok ⟨normalizeItem d⟩

/-- Feeding a `toObject()` result back into the constructor: strings stay
strings, `null` fields become JavaScript `null`, numbers stay numbers. -/
def inject (n : PriceListItemN) : RawPriceItem where
  COD_PROV := n.COD_PROV
  COD_SAP := match n.COD_SAP with | some s => .str s | none => .null
  DESCRIP := match n.DESCRIP with | some s => .str s | none => .null
  COSTO_UNIT := match n.COSTO_UNIT with | some q => .num q | none => .null
  DESC1 := match n.DESC1 with | some q => .num q | none => .null
  DESC2 := match n.DESC2 with | some q => .num q | none => .null
  PROVEEDOR := some n.PROVEEDOR

/-- ISO `YYYY-MM-DD` date parsing, the calendar-date fragment of the
JavaScript `Date` constructor; `none` models an Invalid Date.  The returned
ordinal (`y * 372 + (m - 1) * 31 + (d - 1)`) is strictly monotone in the
represented instant. -/
def parseDate (s : String) : Option Int :=
  match s.data with
  | [y1, y2, y3, y4, '-', m1, m2, '-', d1, d2] =>
      if [y1, y2, y3, y4, m1, m2, d1, d2].all Char.isDigit then
        let y := digitsToNat [y1, y2, y3, y4]
        let m := digitsToNat [m1, m2]
        let d := digitsToNat [d1, d2]
        if 1 ≤ m && m ≤ 12 && 1 ≤ d && d ≤ 31 then
          some ((y * 372 + (m - 1) * 31 + (d - 1) : ℕ) : Int)
        else none
      else none
  | _ => none

/-- `new Date(a) > new Date(b)`: numeric comparison where an Invalid Date
compares as `NaN`, making every comparison involving it false. -/
def dateGt (a b : Option Int) : Bool :=
  match a, b with
  | some x, some y => y < x
  | _, _ => false

/-- Domain entity `DateValidity` (the spec's "ValidityWindow"). -/
structure DateValidity where
  id : Int
  idProveedor : Int
  fecha_inicio : String
  fecha_fin : String
deriving DecidableEq, Repr

/-- The `DateValidity` constructor: `id` and `idProveedor` must be truthy
(non-zero), and `new Date(fecha_inicio) > new Date(fecha_fin)` must be
false; fields are then stored verbatim. -/
def mkDateValidity (id idProveedor : Int) (fecha_inicio fecha_fin : String) :
    Except String DateValidity :=
  if id = 0 then .error "El ID es obligatorio"
  else if idProveedor = 0 then .error "El ID del proveedor es obligatorio"
  else if dateGt (parseDate fecha_inicio) (parseDate fecha_fin) then
    .error "La fecha de inicio no puede ser mayor que la fecha de fin"
  else .ok ⟨id, idProveedor, fecha_inicio, fecha_fin⟩

/-! ## Store model

Postgres `numeric` values: `NaN` is a valid `numeric` value that compares
equal to itself; nullable columns are `Option PgNum`. -/

/-- A Postgres `numeric` value. -/
inductive PgNum
  | nan
  | val (q : ℚ)
deriving DecidableEq, Repr

/-- Equality of `numeric` values (Postgres treats `NaN` as equal to `NaN`). -/
def pgEq : PgNum → PgNum → Bool
  | .nan, .nan => true
  | .val a, .val b => a = b
  | _, _ => false

/-- `stored IS DISTINCT FROM proposed` for a nullable stored column and a
non-null proposed parameter. -/
def distinctFrom (stored : Option PgNum) (proposed : PgNum) : Bool :=
  match stored with
  | none => true
  | some v => !pgEq v proposed

/-- A row of `supplier_price_list`. -/
structure PriceRow where
  id : Int
  cod_prov : String
  cod_sap : Option String
  costo_unitario : Option PgNum
  descuento1 : Option PgNum
  descuento2 : Option PgNum
  proveedor_id : Option ℚ
  /-- `updated_at`, as a logical clock tick. -/
  updated_at : ℕ
deriving DecidableEq, Repr

/-- The price table plus id-assignment and clock state. -/
structure PriceStore where
  rows : List PriceRow
  nextId : Int
  clock : ℕ
deriving DecidableEq, Repr

/-- `parseFloat(String(x))` for an `x` that is a JavaScript number or an
absent/null value: numbers pass through, everything else becomes `NaN`
(`String(undefined) = "undefined"`, `String(null) = "null"`, and
`String(NaN) = "NaN"`, none of which parse). -/
def toPg : Option JsNumber → PgNum
  | some (some q) => .val q
  | _ => .nan

/-- `parseFloat(String(x))` for a normalized `number | null` field on the
insert path (`String(null) = "null"` parses to `NaN`). -/
def toPgIns : Option ℚ → PgNum
  | some q => .val q
  | none => .nan

/-- Row built by one `INSERT INTO supplier_price_list` statement; the
store's clock stands in for the column defaults. -/
def mkRow (id : Int) (clock : ℕ) (item : PriceListItemN) : PriceRow where
  id := id
  cod_prov := item.COD_PROV
  cod_sap := item.COD_SAP
  costo_unitario := some (toPgIns item.COSTO_UNIT)
  descuento1 := some (toPgIns item.DESC1)
  descuento2 := some (toPgIns item.DESC2)
  proveedor_id := item.PROVEEDOR
  updated_at := clock

/-- Inner loop of `insertarListPrecios` between `BEGIN` and `COMMIT`: insert
one row per item in submission order; `failAt = some k` makes the `k`-th
statement raise `errMsg` (the failure oracle stands for the database). -/
def insertLoop (failAt : Option ℕ) (errMsg : String) :
    ℕ → PriceStore → List PriceListItemN →
    Except String (PriceStore × List PriceRow)
  | _, st, [] => .ok (st, [])
  | i, st, item :: rest =>
      if failAt = some i then .error errMsg
      else
        let row := mkRow st.nextId st.clock item
        (insertLoop failAt errMsg (i + 1)
            { st with rows := st.rows ++ [row], nextId := st.nextId + 1 }
            rest).map
          (fun r => (r.1, row :: r.2))

/-- `insertarListPrecios`: the whole batch runs between `BEGIN` and
`COMMIT`; any statement failure triggers `ROLLBACK` (the store reverts to
its pre-call state) and the error is rethrown wrapped in
`"Error al insertar lista de precios: "`. -/
def insertarListPrecios (failAt : Option ℕ) (errMsg : String)
    (st : PriceStore) (data : List PriceListItemN) :
    PriceStore × Except String (List PriceRow) :=
  match insertLoop failAt errMsg 0 st data with
  | .ok (st', rows) => (st', .ok rows)
  | .error m => (st, .error ("Error al insertar lista de precios: " ++ m))

/-! ## Conditional update (`updateListPrice`) -/

/-- A sparse patch as built by `updateListsPrecios`: a field is `none` when
the incoming record did not define it. -/
structure UpdatePatch where
  id : JsNumber
  costo_unitario : Option JsNumber
  descuento1 : Option JsNumber
  descuento2 : Option JsNumber
deriving DecidableEq, Repr

/-- `WHERE id = $4`: a `NaN` id parameter matches no row. -/
def idMatches (rid : Int) (pid : JsNumber) : Bool := pid = some (rid : ℚ)

/-- The `WHERE` predicate of the conditional `UPDATE`: the id matches and at
least one of the three columns `IS DISTINCT FROM` its proposed value. -/
def rowMatches (p : UpdatePatch) (r : PriceRow) : Bool :=
  idMatches r.id p.id &&
    (distinctFrom r.costo_unitario (toPg p.costo_unitario) ||
     distinctFrom r.descuento1 (toPg p.descuento1) ||
     distinctFrom r.descuento2 (toPg p.descuento2))

/-- Effect of the `UPDATE ... SET` on a single row. -/
def applyPatch (clock : ℕ) (p : UpdatePatch) (r : PriceRow) : PriceRow :=
  if rowMatches p r then
    { r with
      costo_unitario := some (toPg p.costo_unitario)
      descuento1 := some (toPg p.descuento1)
      descuento2 := some (toPg p.descuento2)
      updated_at := clock }
  else r

/-- The returned rows of one `UPDATE ... RETURNING` statement: the batch
pushes `result.rows[0]` when at least one row matched. -/
def returningHead (clock : ℕ) (p : UpdatePatch) (rows : List PriceRow) :
    List PriceRow :=
  match (rows.filter (rowMatches p)).head? with
  | some r => [applyPatch clock p r]
  | none => []

/-- Per-patch loop of `updateListPrice`: each patch issues one conditional
`UPDATE`, bumping `updatedCount` when the statement reports affected rows. -/
def updateLoop (clock : ℕ) :
    List PriceRow → List UpdatePatch → List PriceRow × ℕ × List PriceRow
  | rows, [] => (rows, 0, [])
  | rows, p :: ps =>
      let rows' := rows.map (applyPatch clock p)
      let rec' := updateLoop clock rows' ps
      (rec'.1, (if rows.any (rowMatches p) then 1 else 0) + rec'.2.1,
        returningHead clock p rows ++ rec'.2.2)

/-- Result shape of `updateListPrice`. -/
structure UpdateResult where
  updatedCount : ℕ
  updatedItems : List PriceRow
  message : String
deriving DecidableEq, Repr

/-- `updateListPrice`: an empty batch short-circuits without touching the
store; otherwise every patch runs its conditional update inside one
transaction and the message summarizes the count. -/
def updateListPrice (st : PriceStore) (data : List UpdatePatch) :
    PriceStore × UpdateResult :=
  if data.isEmpty then
    (st, ⟨0, [], "No se proporcionaron datos para actualizar"⟩)
  else
    let r := updateLoop st.clock st.rows data
    ({ st with rows := r.1, clock := st.clock + 1 },
      ⟨r.2.1, r.2.2,
        if r.2.1 = 0 then "No se modificaron registros (los valores eran iguales)"
        else toString r.2.1 ++ " registros actualizados correctamente"⟩)

/-- A raw JavaScript value among those reaching `updateListsPrecios`'s
field positions: `null`, a string, or a (finite) number. -/
inductive JsPrim
  | null
  | str (s : String)
  | num (q : ℚ)
deriving DecidableEq, Repr

/-- `Number(v)` on a raw value: `Number(null) = 0`. -/
def JsPrim.toNumber : JsPrim → JsNumber
  | .null => some 0
  | .str s => jsNumber s
  | .num q => some q

/-- One raw item of the update payload; `none` fields are `undefined`. -/
structure RawUpdateItem where
  id : JsPrim
  costo_unitario : Option JsPrim
  descuento1 : Option JsPrim
  descuento2 : Option JsPrim
deriving DecidableEq, Repr

/-- The adapter of `updateListsPrecios`: `id` is always coerced with
`Number(...)`; a price/discount field is included (and coerced) only when
the incoming field is not `undefined`. -/
def adaptItem (it : RawUpdateItem) : UpdatePatch where
  id := it.id.toNumber
  costo_unitario := it.costo_unitario.map JsPrim.toNumber
  descuento1 := it.descuento1.map JsPrim.toNumber
  descuento2 := it.descuento2.map JsPrim.toNumber

/-- Use case `updateListsPrecios`: adapt, then delegate to the repository. -/
def updateListsPrecios (st : PriceStore) (data : List RawUpdateItem) :
    PriceStore × UpdateResult :=
  updateListPrice st (data.map adaptItem)

/-! ## Validity windows (`dateValidity` upsert) -/

/-- A row of `date_validity` (`id_proveedor` carries a UNIQUE constraint). -/
structure ValidityRow where
  id : Int
  id_proveedor : Int
  fecha_inicio : String
  fecha_fin : String
deriving DecidableEq, Repr

/-- The validity table plus id-assignment state. -/
structure ValidityStore where
  rows : List ValidityRow
  nextId : Int
deriving DecidableEq, Repr

/-- One `INSERT ... ON CONFLICT (id_proveedor) DO UPDATE` statement: update
the existing row for the supplier, or insert a fresh one. -/
def upsertOne (st : ValidityStore) (w : DateValidity) :
    ValidityStore × ValidityRow :=
  match st.rows.find? (fun r => r.id_proveedor = w.idProveedor) with
  | some r0 =>
      ({ st with
          rows := st.rows.map (fun r =>
            if r.id_proveedor = w.idProveedor then
              { r with fecha_inicio := w.fecha_inicio, fecha_fin := w.fecha_fin }
            else r) },
        { r0 with fecha_inicio := w.fecha_inicio, fecha_fin := w.fecha_fin })
  | none =>
      let r : ValidityRow :=
        ⟨st.nextId, w.idProveedor, w.fecha_inicio, w.fecha_fin⟩
      ({ rows := st.rows ++ [r], nextId := st.nextId + 1 }, r)

/-- Successive upserts of a window list (the store effect of one or more
fully successful `dateValidity` calls, flattened). -/
def applyWindows (st : ValidityStore) (ws : List DateValidity) : ValidityStore :=
  ws.foldl (fun s w => (upsertOne s w).1) st

/-- `dateValidity`: iterates upserts with **no** surrounding transaction; a
statement failure (`failAt = some k`) aborts the loop and wraps the error in
`"Error en dateValidity: "`, but the store keeps the effect of every upsert
already executed. -/
def dateValidityRun (failAt : Option ℕ) (errMsg : String)
    (st : ValidityStore) (ws : List DateValidity) :
    ValidityStore × Except String (List ValidityRow) :=
  go 0 st ws
where
  go : ℕ → ValidityStore → List DateValidity →
      ValidityStore × Except String (List ValidityRow)
  | _, st, [] => (st, .ok [])
  | i, st, w :: rest =>
      if failAt = some i then
        (st, .error ("Error en dateValidity: " ++ errMsg))
      else
        let res := go (i + 1) (upsertOne st w).1 rest
        (res.1, res.2.map (fun rs => (upsertOne st w).2 :: rs))

/-! ## Helper lemmas -/

theorem trim_aux (p : Char → Bool) (l : List Char) :
    ((l.dropWhile p).rdropWhile p).dropWhile p = (l.dropWhile p).rdropWhile p := by
  have hYY : (l.dropWhile p).dropWhile p = l.dropWhile p :=
    List.dropWhile_idempotent p l
  obtain ⟨t, ht⟩ := List.rdropWhile_prefix p (l.dropWhile p)
  cases hX : (l.dropWhile p).rdropWhile p with
  | nil => simp
  | cons a s =>
    have hpa : p a = false := by
      rw [hX] at ht
      by_contra hpa'
      have hpa2 : p a = true := by simpa using hpa'
      have h1 : (l.dropWhile p).dropWhile p = (s ++ t).dropWhile p := by
        rw [← ht]
        simp [List.dropWhile_cons, hpa2]
      rw [hYY, ← ht] at h1
      have h2 := congrArg List.length h1
      have h3 := (List.dropWhile_suffix p (l := s ++ t)).length_le
      simp at h2 h3
      omega
    simp [List.dropWhile_cons, hpa]

theorem trimList_idem (l : List Char) : trimList (trimList l) = trimList l := by
  unfold trimList
  rw [trim_aux, List.rdropWhile_idempotent]

theorem jsTrim_idem (s : String) : jsTrim (jsTrim s) = jsTrim s := by
  unfold jsTrim
  exact congrArg String.mk (trimList_idem s.data)

theorem parseUnsigned_chars {l : List Char} {q : ℚ}
    (h : parseUnsigned l = some q) : ∀ c ∈ l, c.isDigit ∨ c = '.' := by
  have hsplit : l.takeWhile Char.isDigit ++ l.dropWhile Char.isDigit = l :=
    List.takeWhile_append_dropWhile Char.isDigit l
  intro c hc
  rw [← hsplit] at hc
  rcases List.mem_append.mp hc with hc1 | hc2
  · exact Or.inl (List.mem_takeWhile_imp hc1)
  · cases hrest : l.dropWhile Char.isDigit with
    | nil => rw [hrest] at hc2; cases hc2
    | cons r rs =>
      unfold parseUnsigned at h
      rw [hrest] at h hc2
      simp only [] at h
      by_cases hr : r = '.'
      · subst hr
        rw [if_pos rfl] at h
        rcases hc2 with _ | hc3
        · exact Or.inr rfl
        · split at h
          · rename_i hcond
            have hall := ((Bool.and_eq_true _ _).mp hcond).1
            exact Or.inl (List.all_eq_true.mp hall c (by assumption))
          · cases h
      · rw [if_neg hr] at h
        cases h

theorem jsNumberCore_chars {l : List Char} {q : ℚ}
    (h : jsNumberCore l = some q) :
    ∀ c ∈ l, c.isDigit ∨ c = '.' ∨ c = '-' ∨ c = '+' := by
  cases l with
  | nil => intro c hc; cases hc
  | cons a r =>
    rw [show jsNumberCore (a :: r) =
        (if a = '-' then (parseUnsigned r).map (fun q => -q)
         else if a = '+' then parseUnsigned r
         else parseUnsigned (a :: r)) from rfl] at h
    intro c hc
    by_cases ha : a = '-'
    · rw [if_pos ha] at h
      rcases Option.map_eq_some'.mp h with ⟨q', hq', _⟩
      rcases hc with _ | hc2
      · exact Or.inr (Or.inr (Or.inl ha))
      · rcases parseUnsigned_chars hq' c (by assumption) with h1 | h1
        · exact Or.inl h1
        · exact Or.inr (Or.inl h1)
    · rw [if_neg ha] at h
      by_cases hb : a = '+'
      · rw [if_pos hb] at h
        rcases hc with _ | hc2
        · exact Or.inr (Or.inr (Or.inr hb))
        · rcases parseUnsigned_chars h c (by assumption) with h1 | h1
          · exact Or.inl h1
          · exact Or.inr (Or.inl h1)
      · rw [if_neg hb] at h
        rcases parseUnsigned_chars h c hc with h1 | h1
        · exact Or.inl h1
        · exact Or.inr (Or.inl h1)

/-- A successfully parsed numeric string contains no comma, so stripping
thousands-separator commas is a no-op on it. -/
theorem stripCommas_of_jsNumberCore {l : List Char} {q : ℚ}
    (h : jsNumberCore l = some q) : stripCommas l = l := by
  unfold stripCommas
  rw [List.filter_eq_self]
  intro c hc
  rcases jsNumberCore_chars h c hc with h1 | h1 | h1 | h1 <;>
    simp only [decide_eq_true_eq] <;> rintro rfl <;> simp_all

/-- Unfolding the `if present then validate else skip` guards. -/
theorem if_val_ok {b : Bool} {v : Except String Unit} :
    (if b then v else .ok ()) = .ok () ↔ (b = true → v = .ok ()) := by
  cases b <;> simp

/-- Characterization of a successful `PriceList` construction: every guard
passes and the payload is the normalized record. -/
theorem construct_ok_iff (d : RawPriceItem) (p : PriceList) :
    PriceList.construct d = .ok p ↔
      (d.COD_PROV ≠ "" ∧
       validateCodProv d.COD_PROV = .ok () ∧
       (if d.COD_SAP.present then validateCodSap d.COD_SAP.toStr
        else .ok ()) = .ok () ∧
       (if d.DESCRIP.present then validateDescrip d.DESCRIP.toStr
        else .ok ()) = .ok () ∧
       (if d.COSTO_UNIT.present then validateCostoUnit d.COSTO_UNIT
        else .ok ()) = .ok () ∧
       (if d.DESC1.present then validateDescuento d.DESC1 "DESC1"
        else .ok ()) = .ok () ∧
       (if d.DESC2.present then validateDescuento d.DESC2 "DESC2"
        else .ok ()) = .ok () ∧
       p = ⟨normalizeItem d⟩) := by
  unfold PriceList.construct
  by_cases h0 : d.COD_PROV = ""
  · simp [h0]
  · rw [if_neg h0]
    cases h1 : validateCodProv d.COD_PROV with
    | error e => simp [h0, h1]
    | ok u =>
      cases u
      cases h2 : (if d.COD_SAP.present then validateCodSap d.COD_SAP.toStr
          else .ok ()) with
      | error e => simp [h0, h1, h2]
      | ok u =>
        cases u
        cases h3 : (if d.DESCRIP.present then validateDescrip d.DESCRIP.toStr
            else .ok ()) with
        | error e => simp [h0, h1, h2, h3]
        | ok u =>
          cases u
          cases h4 : (if d.COSTO_UNIT.present then validateCostoUnit d.COSTO_UNIT
              else .ok ()) with
          | error e => simp [h0, h1, h2, h3, h4]
          | ok u =>
            cases u
            cases h5 : (if d.DESC1.present then validateDescuento d.DESC1 "DESC1"
                else .ok ()) with
            | error e => simp [h0, h1, h2, h3, h4, h5]
            | ok u =>
              cases u
              cases h6 : (if d.DESC2.present then validateDescuento d.DESC2 "DESC2"
                  else .ok ()) with
              | error e => simp [h0, h1, h2, h3, h4, h5, h6]
              | ok u =>
                cases u
                simp [h0, h1, h2, h3, h4, h5, h6, eq_comm]

/-- If every guard before `DESC1` passes and the `DESC1` validation throws,
the construction surfaces exactly that error. -/
theorem construct_desc1_error (d : RawPriceItem) (e : String)
    (h0 : ¬d.COD_PROV = "")
    (h1 : validateCodProv d.COD_PROV = .ok ())
    (h2 : (if d.COD_SAP.present then validateCodSap d.COD_SAP.toStr
        else .ok ()) = .ok ())
    (h3 : (if d.DESCRIP.present then validateDescrip d.DESCRIP.toStr
        else .ok ()) = .ok ())
    (h4 : (if d.COSTO_UNIT.present then validateCostoUnit d.COSTO_UNIT
        else .ok ()) = .ok ())
    (h5 : d.DESC1.present = true)
    (h6 : validateDescuento d.DESC1 "DESC1" = .error e) :
    PriceList.construct d = .error e := by
  unfold PriceList.construct
  rw [if_neg h0, h1, h2, h3, h4, if_pos h5, h6]

/-- If every guard before `DESC2` passes and the `DESC2` validation throws,
the construction surfaces exactly that error. -/
theorem construct_desc2_error (d : RawPriceItem) (e : String)
    (h0 : ¬d.COD_PROV = "")
    (h1 : validateCodProv d.COD_PROV = .ok ())
    (h2 : (if d.COD_SAP.present then validateCodSap d.COD_SAP.toStr
        else .ok ()) = .ok ())
    (h3 : (if d.DESCRIP.present then validateDescrip d.DESCRIP.toStr
        else .ok ()) = .ok ())
    (h4 : (if d.COSTO_UNIT.present then validateCostoUnit d.COSTO_UNIT
        else .ok ()) = .ok ())
    (h5 : (if d.DESC1.present then validateDescuento d.DESC1 "DESC1"
        else .ok ()) = .ok ())
    (h6 : d.DESC2.present = true)
    (h7 : validateDescuento d.DESC2 "DESC2" = .error e) :
    PriceList.construct d = .error e := by
  unfold PriceList.construct
  rw [if_neg h0, h1, h2, h3, h4, h5, if_pos h6, h7]

/-! ## Theorems -/

/-- C1.  On the record `COD_PROV = "A"`, `COSTO_UNIT = "13,500.00"`,
construction succeeds, but the normalized `COSTO_UNIT` returned by
`toObject()` is `null`, not `13500`: `validateCostoUnit` strips the
thousands-separator commas, while `normalizeNumber` applies `Number(...)`
to the raw comma string, which yields `NaN` and is mapped to `null`.  The
negative input `"-5"` fails as the claim states. -/
theorem costoUnit_comma_normalized_to_null :
    PriceList.construct ⟨"A", .undef, .undef, .str "13,500.00", .undef, .undef, none⟩ =
      .ok ⟨⟨"A", none, none, none, none, none, none⟩⟩ ∧
    (PriceList.toObject ⟨⟨"A", none, none, none, none, none, none⟩⟩).COSTO_UNIT ≠
      some (13500 : ℚ) ∧
    PriceList.construct ⟨"A", .undef, .undef, .str "-5", .undef, .undef, none⟩ =
      .error "COSTO_UNIT no puede ser negativo" := by
  exact ⟨by decide, by decide, by decide⟩

/-- C2.  A patch that defines only `descuento1` for row 1 does not leave the
other columns untouched: the repository's `UPDATE` sets all three columns,
coercing the absent fields with `parseFloat(String(undefined)) = NaN`, so
the stored `costo_unitario` changes from `100` to `NaN` (and `descuento2`
from `0` to `NaN`). -/
theorem absent_patch_fields_overwritten_with_nan :
    updateListsPrecios
        ⟨[⟨1, "A", none, some (.val 100), some (.val 10), some (.val 0), none, 0⟩], 2, 5⟩
        [⟨.num 1, none, some (.num 5), none⟩] =
      (⟨[⟨1, "A", none, some .nan, some (.val 5), some .nan, none, 5⟩], 2, 6⟩,
        ⟨1, [⟨1, "A", none, some .nan, some (.val 5), some .nan, none, 5⟩],
          "1 registros actualizados correctamente"⟩) ∧
    (some PgNum.nan : Option PgNum) ≠ some (PgNum.val 100) := by
  exact ⟨by decide, by decide⟩

/-- C3 counterexample.  A two-window batch whose second upsert fails leaves
the first window persisted: the resulting validity table differs from the
table before the call, refuting batch-level rollback. -/
theorem dateValidity_failure_keeps_earlier_upserts :
    dateValidityRun (some 1) "db down" ⟨[], 1⟩
        [⟨1, 100, "2024-01-01", "2024-12-31"⟩, ⟨2, 200, "2024-01-01", "2025-06-30"⟩] =
      (⟨[⟨1, 100, "2024-01-01", "2024-12-31"⟩], 2⟩,
        .error "Error en dateValidity: db down") ∧
    (⟨[⟨1, 100, "2024-01-01", "2024-12-31"⟩], 2⟩ : ValidityStore) ≠ ⟨[], 1⟩ := by
  exact ⟨by decide, by decide⟩

/-- C7.  On any record accepted by the constructor, replacing `DESC1` (or
`DESC2`) with `100` still validates, while `101`, `-1` and the non-integer
string `"10.5"` each abort construction with an error naming the offending
field. -/
theorem discount_bounds (r : RawPriceItem) (p : PriceList)
    (h : PriceList.construct r = .ok p) :
    (∃ p1, PriceList.construct { r with DESC1 := .num 100 } = .ok p1) ∧
    PriceList.construct { r with DESC1 := .num 101 } =
      .error "DESC1 excede el máximo de 3 dígitos (valor máximo: 100)" ∧
    PriceList.construct { r with DESC1 := .num (-1) } =
      .error "DESC1 no puede ser negativo" ∧
    PriceList.construct { r with DESC1 := .str "10.5" } =
      .error "DESC1 debe ser un número entero" ∧
    (∃ p2, PriceList.construct { r with DESC2 := .num 100 } = .ok p2) ∧
    PriceList.construct { r with DESC2 := .num 101 } =
      .error "DESC2 excede el máximo de 3 dígitos (valor máximo: 100)" ∧
    PriceList.construct { r with DESC2 := .num (-1) } =
      .error "DESC2 no puede ser negativo" ∧
    PriceList.construct { r with DESC2 := .str "10.5" } =
      .error "DESC2 debe ser un número entero" := by
  obtain ⟨h0, h1, h2, h3, h4, h5, h6, -⟩ := (construct_ok_iff r p).mp h
  have hok1 : (if NumStrField.present (.num 100) then
      validateDescuento (.num 100) "DESC1" else .ok ()) = .ok () := by decide
  have hok2 : (if NumStrField.present (.num 100) then
      validateDescuento (.num 100) "DESC2" else .ok ()) = .ok () := by decide
  have he1 : validateDescuento (.num 101) "DESC1" =
      .error "DESC1 excede el máximo de 3 dígitos (valor máximo: 100)" := by decide
  have he2 : validateDescuento (.num (-1)) "DESC1" =
      .error "DESC1 no puede ser negativo" := by decide
  have he3 : validateDescuento (.str "10.5") "DESC1" =
      .error "DESC1 debe ser un número entero" := by decide
  have he4 : validateDescuento (.num 101) "DESC2" =
      .error "DESC2 excede el máximo de 3 dígitos (valor máximo: 100)" := by decide
  have he5 : validateDescuento (.num (-1)) "DESC2" =
      .error "DESC2 no puede ser negativo" := by decide
  have he6 : validateDescuento (.str "10.5") "DESC2" =
      .error "DESC2 debe ser un número entero" := by decide
  refine ⟨⟨⟨normalizeItem { r with DESC1 := .num 100 }⟩, ?_⟩, ?_, ?_, ?_,
    ⟨⟨normalizeItem { r with DESC2 := .num 100 }⟩, ?_⟩, ?_, ?_, ?_⟩
  · exact (construct_ok_iff _ _).mpr ⟨h0, h1, h2, h3, h4, hok1, h6, rfl⟩
  · exact construct_desc1_error _ _ h0 h1 h2 h3 h4 rfl he1
  · exact construct_desc1_error _ _ h0 h1 h2 h3 h4 rfl he2
  · exact construct_desc1_error _ _ h0 h1 h2 h3 h4 rfl he3
  · exact (construct_ok_iff _ _).mpr ⟨h0, h1, h2, h3, h4, h5, hok2, rfl⟩
  · exact construct_desc2_error _ _ h0 h1 h2 h3 h4 h5 rfl he4
  · exact construct_desc2_error _ _ h0 h1 h2 h3 h4 h5 rfl he5
  · exact construct_desc2_error _ _ h0 h1 h2 h3 h4 h5 rfl he6

/-- C7 witness: the theorem applied to the concrete accepted record with
`COD_PROV = "A"` and every optional field absent. -/
theorem discount_bounds_witness :
    PriceList.construct ⟨"A", .undef, .undef, .undef, .undef, .undef, none⟩ =
      .ok ⟨⟨"A", none, none, none, none, none, none⟩⟩ ∧
    ((∃ p1, PriceList.construct
        ⟨"A", .undef, .undef, .undef, .num 100, .undef, none⟩ = .ok p1) ∧
     PriceList.construct ⟨"A", .undef, .undef, .undef, .num 101, .undef, none⟩ =
       .error "DESC1 excede el máximo de 3 dígitos (valor máximo: 100)" ∧
     PriceList.construct ⟨"A", .undef, .undef, .undef, .num (-1), .undef, none⟩ =
       .error "DESC1 no puede ser negativo" ∧
     PriceList.construct ⟨"A", .undef, .undef, .undef, .str "10.5", .undef, none⟩ =
       .error "DESC1 debe ser un número entero" ∧
     (∃ p2, PriceList.construct
        ⟨"A", .undef, .undef, .undef, .undef, .num 100, none⟩ = .ok p2) ∧
     PriceList.construct ⟨"A", .undef, .undef, .undef, .undef, .num 101, none⟩ =
       .error "DESC2 excede el máximo de 3 dígitos (valor máximo: 100)" ∧
     PriceList.construct ⟨"A", .undef, .undef, .undef, .undef, .num (-1), none⟩ =
       .error "DESC2 no puede ser negativo" ∧
     PriceList.construct ⟨"A", .undef, .undef, .undef, .undef, .str "10.5", none⟩ =
       .error "DESC2 debe ser un número entero") :=
  ⟨by decide,
    discount_bounds ⟨"A", .undef, .undef, .undef, .undef, .undef, none⟩
      ⟨⟨"A", none, none, none, none, none, none⟩⟩ (by decide)⟩

/-- C9 counterexample.  For the accepted record `COD_PROV = "A"`,
`COD_SAP = " "`, the first `toObject()` carries `COD_SAP = ""` (the
whitespace-only string trims to empty), while re-validating that output
maps the empty string to `null`: the two outputs differ, refuting
unconditional idempotence. -/
theorem revalidation_not_idempotent :
    PriceList.construct ⟨"A", .str " ", .undef, .undef, .undef, .undef, none⟩ =
      .ok ⟨⟨"A", some "", none, none, none, none, none⟩⟩ ∧
    PriceList.construct
        (inject (PriceList.toObject ⟨⟨"A", some "", none, none, none, none, none⟩⟩)) =
      .ok ⟨⟨"A", none, none, none, none, none, none⟩⟩ ∧
    PriceList.toObject ⟨⟨"A", none, none, none, none, none, none⟩⟩ ≠
      PriceList.toObject ⟨⟨"A", some "", none, none, none, none, none⟩⟩ := by
  exact ⟨by decide, by decide, by decide⟩

/-- C8.  `DateValidity` construction fails with the date-order error when
the start date parses strictly later than the end date, succeeds when the
two date strings coincide, and fails on a zero `id` or `idProveedor`. -/
theorem dateValidity_order_and_required (i s : Int) (fi ff : String) :
    (i ≠ 0 → s ≠ 0 → ∀ a b : Int, parseDate fi = some a → parseDate ff = some b →
      b < a → mkDateValidity i s fi ff =
        .error "La fecha de inicio no puede ser mayor que la fecha de fin") ∧
    (i ≠ 0 → s ≠ 0 → mkDateValidity i s fi fi = .ok ⟨i, s, fi, fi⟩) ∧
    mkDateValidity 0 s fi ff = .error "El ID es obligatorio" ∧
    (i ≠ 0 → mkDateValidity i 0 fi ff = .error "El ID del proveedor es obligatorio") := by
  refine ⟨?_, ?_, ?_, ?_⟩
  · intro hi hs a b ha hb hba
    have hg : dateGt (parseDate fi) (parseDate ff) = true := by
      rw [ha, hb]; simpa [dateGt] using hba
    simp [mkDateValidity, hi, hs, hg]
  · intro hi hs
    have hg : dateGt (parseDate fi) (parseDate fi) = false := by
      cases parseDate fi <;> simp [dateGt]
    simp [mkDateValidity, hi, hs, hg]
  · simp [mkDateValidity]
  · intro hi
    simp [mkDateValidity, hi]

/-- C8 witness: the theorem at `id = 1`, `idProveedor = 2`,
`fecha_inicio = "2024-06-01"`, `fecha_fin = "2024-01-01"`. -/
theorem dateValidity_order_and_required_witness :
    mkDateValidity 1 2 "2024-06-01" "2024-01-01" =
      .error "La fecha de inicio no puede ser mayor que la fecha de fin" ∧
    mkDateValidity 1 2 "2024-06-01" "2024-06-01" =
      .ok ⟨1, 2, "2024-06-01", "2024-06-01"⟩ ∧
    mkDateValidity 0 2 "2024-06-01" "2024-01-01" = .error "El ID es obligatorio" ∧
    mkDateValidity 1 0 "2024-06-01" "2024-01-01" =
      .error "El ID del proveedor es obligatorio" := by
  obtain ⟨t1, t2, t3, t4⟩ :=
    dateValidity_order_and_required 1 2 "2024-06-01" "2024-01-01"
  exact ⟨t1 (by decide) (by decide) 753083 752928 (by decide) (by decide)
      (by decide),
    t2 (by decide) (by decide), t3, t4 (by decide)⟩

/-- C10.  With non-zero ids, the `DateValidity` constructor succeeds and
stores both date strings verbatim whenever either of them fails to parse
(the `NaN` comparison is false), and conversely the date-order error occurs
only when both strings parse with the start strictly later than the end. -/
theorem dateValidity_invalid_dates_pass (i s : Int) (fi ff : String)
    (hi : i ≠ 0) (hs : s ≠ 0) :
    ((parseDate fi = none ∨ parseDate ff = none) →
      mkDateValidity i s fi ff = .ok ⟨i, s, fi, ff⟩) ∧
    (mkDateValidity i s fi ff =
        .error "La fecha de inicio no puede ser mayor que la fecha de fin" →
      ∃ a b : Int, parseDate fi = some a ∧ parseDate ff = some b ∧ b < a) := by
  constructor
  · intro h
    have hg : dateGt (parseDate fi) (parseDate ff) = false := by
      rcases h with h | h
      · rw [h]; cases parseDate ff <;> rfl
      · rw [h]; cases parseDate fi <;> rfl
    simp [mkDateValidity, hi, hs, hg]
  · intro h
    cases ha : parseDate fi with
    | none =>
      have hg : dateGt (parseDate fi) (parseDate ff) = false := by
        rw [ha]; cases parseDate ff <;> rfl
      simp [mkDateValidity, hi, hs, hg] at h
    | some a =>
      cases hb : parseDate ff with
      | none =>
        have hg : dateGt (parseDate fi) (parseDate ff) = false := by
          rw [ha, hb]; rfl
        simp [mkDateValidity, hi, hs, hg] at h
      | some b =>
        by_cases hba : b < a
        · exact ⟨a, b, rfl, rfl, hba⟩
        · have hg : dateGt (parseDate fi) (parseDate ff) = false := by
            rw [ha, hb]; simpa [dateGt] using hba
          simp [mkDateValidity, hi, hs, hg] at h

/-- C10 witness: the theorem at the unparseable start string `"nope"`. -/
theorem dateValidity_invalid_dates_pass_witness :
    parseDate "nope" = none ∧
    mkDateValidity 1 1 "nope" "2024-01-01" = .ok ⟨1, 1, "nope", "2024-01-01"⟩ :=
  ⟨by decide,
    (dateValidity_invalid_dates_pass 1 1 "nope" "2024-01-01" (by decide)
        (by decide)).1 (Or.inl (by decide))⟩
/-- `applyWindows` unfolds one upsert at a time. -/
theorem applyWindows_cons (st : ValidityStore) (w : DateValidity)
    (ws : List DateValidity) :
    applyWindows st (w :: ws) = applyWindows (upsertOne st w).1 ws := rfl

/-- The failing run of the upsert loop: a failure at running index `i + k`
leaves exactly the first `k` upserts applied. -/
theorem dateValidityRun_go_fail (m : String) (ws : List DateValidity) :
    ∀ (k i : ℕ) (st : ValidityStore), k < ws.length →
      dateValidityRun.go (some (i + k)) m i st ws =
        (applyWindows st (ws.take k), .error ("Error en dateValidity: " ++ m)) := by
  induction ws with
  | nil => intro k i st hk; cases hk
  | cons w rest ih =>
    intro k i st hk
    cases k with
    | zero => simp [dateValidityRun.go, applyWindows]
    | succ n =>
      simp only [dateValidityRun.go]
      rw [if_neg (by intro hcc; exact absurd (Option.some.inj hcc) (by omega))]
      have h2 := ih n (i + 1) (upsertOne st w).1
        (Nat.lt_of_succ_lt_succ (by simpa using hk))
      rw [show i + 1 + n = i + (n + 1) from by omega] at h2
      rw [List.take_succ_cons, applyWindows_cons, h2]
      rfl

/-- C3 amended.  `dateValidity` runs its upserts with no surrounding
transaction: when persisting window `k` of the batch fails, the store keeps
exactly the effect of windows `0..k-1` (no rollback) and the call returns
the wrapped error. -/
theorem dateValidity_no_rollback (k : ℕ) (m : String) (st : ValidityStore)
    (ws : List DateValidity) (hk : k < ws.length) :
    dateValidityRun (some k) m st ws =
      (applyWindows st (ws.take k), .error ("Error en dateValidity: " ++ m)) := by
  unfold dateValidityRun
  have := dateValidityRun_go_fail m ws k 0 st hk
  rwa [Nat.zero_add] at this

/-- C3 witness: a concrete two-window batch failing at index 1 keeps the
first window's upsert. -/
theorem dateValidity_no_rollback_witness :
    (1 < ([⟨1, 100, "2024-01-01", "2024-12-31"⟩,
        ⟨2, 200, "2024-01-01", "2025-06-30"⟩] : List DateValidity).length) ∧
    dateValidityRun (some 1) "db" ⟨[], 1⟩
        [⟨1, 100, "2024-01-01", "2024-12-31"⟩, ⟨2, 200, "2024-01-01", "2025-06-30"⟩] =
      (applyWindows ⟨[], 1⟩ [⟨1, 100, "2024-01-01", "2024-12-31"⟩],
        .error ("Error en dateValidity: " ++ "db")) :=
  ⟨by decide,
    by
      have := dateValidity_no_rollback 1 "db" ⟨[], 1⟩
        [⟨1, 100, "2024-01-01", "2024-12-31"⟩, ⟨2, 200, "2024-01-01", "2025-06-30"⟩]
        (by decide)
      simpa using this⟩

/-- The failing run of the insert loop aborts with the raw error. -/
theorem insertLoop_fail (m : String) (items : List PriceListItemN) :
    ∀ (k i : ℕ) (st : PriceStore), k < items.length →
      insertLoop (some (i + k)) m i st items = .error m := by
  induction items with
  | nil => intro k i st hk; cases hk
  | cons item rest ih =>
    intro k i st hk
    cases k with
    | zero => simp [insertLoop]
    | succ n =>
      simp only [insertLoop]
      rw [if_neg (by intro hcc; exact absurd (Option.some.inj hcc) (by omega))]
      have h2 := ih n (i + 1)
        { st with rows := st.rows ++ [mkRow st.nextId st.clock item], nextId := st.nextId + 1 }
        (Nat.lt_of_succ_lt_succ (by simpa using hk))
      rw [show i + 1 + n = i + (n + 1) from by omega] at h2
      rw [h2]
      rfl

/-- The successful run of the insert loop appends one row per item, in
order, with sequentially assigned ids, and leaves the clock unchanged. -/
theorem insertLoop_ok (m : String) (items : List PriceListItemN) :
    ∀ (i : ℕ) (st : PriceStore), ∃ st2 rows,
      insertLoop none m i st items = .ok (st2, rows) ∧
      st2.rows = st.rows ++ rows ∧
      st2.nextId = st.nextId + rows.length ∧
      st2.clock = st.clock ∧
      rows.length = items.length ∧
      ∀ j (hj : j < rows.length) (hj2 : j < items.length),
        rows.get ⟨j, hj⟩ = mkRow (st.nextId + j) st.clock (items.get ⟨j, hj2⟩) := by
  induction items with
  | nil =>
    intro i st
    exact ⟨st, [], rfl, by simp, by simp, rfl, rfl,
      fun j hj _ => absurd hj (by simp)⟩
  | cons item rest ih =>
    intro i st
    obtain ⟨st2, rows2, h1, h2, h3, h4, h5, h6⟩ := ih (i + 1)
      { st with rows := st.rows ++ [mkRow st.nextId st.clock item], nextId := st.nextId + 1 }
    refine ⟨st2, mkRow st.nextId st.clock item :: rows2, ?_, ?_, ?_, ?_, ?_, ?_⟩
    · simp only [insertLoop]
      rw [if_neg (by simp)]
      rw [h1]
      rfl
    · rw [h2]; simp
    · rw [h3]; simp; ring
    · exact h4
    · simp [h5]
    · intro j hj hj2
      cases j with
      | zero => simp
      | succ n =>
        have hn1 : n < rows2.length := by simpa using Nat.lt_of_succ_lt_succ hj
        have hn2 : n < rest.length := by simpa using Nat.lt_of_succ_lt_succ hj2
        have := h6 n hn1 hn2
        simp only [List.get_cons_succ]
        rw [this]
        congr 1
        push_cast
        ring

/-- C6.  `insertarListPrecios` is all-or-nothing: a failure at any item of
the batch leaves the price table exactly as before the call and surfaces
the wrapped persistence error; a fully successful run appends exactly one
row per input item, in order, with ids assigned sequentially by the store,
and returns those rows. -/
theorem insertarListPrecios_transactional (m : String) (st : PriceStore)
    (items : List PriceListItemN) :
    (∀ k, k < items.length →
      insertarListPrecios (some k) m st items =
        (st, .error ("Error al insertar lista de precios: " ++ m))) ∧
    (∃ st2 rows,
      insertarListPrecios none m st items = (st2, .ok rows) ∧
      st2.rows = st.rows ++ rows ∧
      st2.nextId = st.nextId + rows.length ∧
      st2.clock = st.clock ∧
      rows.length = items.length ∧
      ∀ j (hj : j < rows.length) (hj2 : j < items.length),
        rows.get ⟨j, hj⟩ = mkRow (st.nextId + j) st.clock (items.get ⟨j, hj2⟩)) := by
  constructor
  · intro k hk
    unfold insertarListPrecios
    have := insertLoop_fail m items k 0 st hk
    rw [Nat.zero_add] at this
    rw [this]
  · obtain ⟨st2, rows, h1, h2, h3, h4, h5, h6⟩ := insertLoop_ok m items 0 st
    exact ⟨st2, rows, by unfold insertarListPrecios; rw [h1], h2, h3, h4, h5, h6⟩

/-- C6 witness: the theorem at a concrete one-item batch, failing at item 0
and succeeding with `failAt = none`. -/
theorem insertarListPrecios_transactional_witness :
    (0 < ([⟨"A", none, none, some 5, none, none, none⟩] :
        List PriceListItemN).length) ∧
    insertarListPrecios (some 0) "boom" ⟨[], 1, 0⟩
        [⟨"A", none, none, some 5, none, none, none⟩] =
      (⟨[], 1, 0⟩, .error ("Error al insertar lista de precios: " ++ "boom")) ∧
    (∃ st2 rows,
      insertarListPrecios none "boom" ⟨[], 1, 0⟩
          [⟨"A", none, none, some 5, none, none, none⟩] = (st2, .ok rows) ∧
      st2.rows = (⟨[], 1, 0⟩ : PriceStore).rows ++ rows ∧
      st2.nextId = (⟨[], 1, 0⟩ : PriceStore).nextId + rows.length ∧
      st2.clock = (⟨[], 1, 0⟩ : PriceStore).clock ∧
      rows.length = ([⟨"A", none, none, some 5, none, none, none⟩] :
        List PriceListItemN).length ∧
      ∀ j (hj : j < rows.length)
        (hj2 : j < ([⟨"A", none, none, some 5, none, none, none⟩] :
          List PriceListItemN).length),
        rows.get ⟨j, hj⟩ = mkRow ((⟨[], 1, 0⟩ : PriceStore).nextId + j)
          (⟨[], 1, 0⟩ : PriceStore).clock
          (([⟨"A", none, none, some 5, none, none, none⟩] :
            List PriceListItemN).get ⟨j, hj2⟩)) := by
  have h := insertarListPrecios_transactional "boom" ⟨[], 1, 0⟩
    [⟨"A", none, none, some 5, none, none, none⟩]
  exact ⟨by decide, h.1 0 (by decide), h.2⟩

/-! ## C5: validity upsert keeps one row per supplier, last writer wins -/

/-- At most one validity row per supplier. -/
def suppliersNodup (st : ValidityStore) : Prop :=
  (st.rows.map (fun r => r.id_proveedor)).Nodup

/-- The validity rows stored for one supplier. -/
def rowsFor (s : Int) (st : ValidityStore) : List ValidityRow :=
  st.rows.filter (fun r => r.id_proveedor = s)

/-- The most recently upserted window for a supplier in a window list. -/
def lastFor (s : Int) (ws : List DateValidity) : Option DateValidity :=
  (ws.filter (fun w => w.idProveedor = s)).getLast?

theorem filter_map_comm {α : Type} (g : α → α) (p : α → Bool)
    (hg : ∀ r, p (g r) = p r) :
    ∀ rows : List α, (rows.map g).filter p = (rows.filter p).map g := by
  intro rows
  induction rows with
  | nil => rfl
  | cons a l ih =>
    simp only [List.map_cons, List.filter_cons, hg a]
    by_cases hpa : p a <;> simp [hpa, ih]

theorem nodup_filter_eq_singleton {α β : Type} [DecidableEq β] (f : α → β)
    (s : β) :
    ∀ rows : List α, (rows.map f).Nodup → ∀ r0 ∈ rows, f r0 = s →
      rows.filter (fun r => f r = s) = [r0] := by
  intro rows
  induction rows with
  | nil => intro _ r0 h0; cases h0
  | cons a l ih =>
    intro hnd r0 hr0 hf
    simp only [List.map_cons, List.nodup_cons] at hnd
    rcases List.mem_cons.mp hr0 with rfl | hmem
    · rw [List.filter_cons, if_pos (by simpa using hf)]
      have hnil : l.filter (fun r => f r = s) = [] := by
        rw [List.filter_eq_nil_iff]
        intro x hx
        simp only [decide_eq_true_eq]
        intro hxs
        exact hnd.1 (hf ▸ hxs ▸ List.mem_map_of_mem f hx)
      rw [hnil]
    · have hfa : ¬(f a = s) := by
        intro has
        exact hnd.1 (has ▸ hf ▸ List.mem_map_of_mem f hmem)
      rw [List.filter_cons, if_neg (by simpa using hfa)]
      exact ih hnd.2 r0 hmem hf

theorem upsertOne_nodup (st : ValidityStore) (w : DateValidity)
    (h : suppliersNodup st) : suppliersNodup (upsertOne st w).1 := by
  unfold upsertOne
  cases hf : st.rows.find? (fun r => r.id_proveedor = w.idProveedor) with
  | some r0 =>
    simp only
    unfold suppliersNodup at h ⊢
    simp only [List.map_map]
    have heq : ((fun r : ValidityRow => r.id_proveedor) ∘
        (fun r : ValidityRow =>
          if r.id_proveedor = w.idProveedor then
            { r with fecha_inicio := w.fecha_inicio, fecha_fin := w.fecha_fin }
          else r)) = fun r : ValidityRow => r.id_proveedor := by
      funext r
      by_cases hr : r.id_proveedor = w.idProveedor <;> simp [hr]
    rw [heq]
    exact h
  | none =>
    unfold suppliersNodup at h ⊢
    simp only [List.map_append, List.map_cons, List.map_nil]
    rw [List.nodup_append]
    refine ⟨h, List.nodup_singleton _, ?_⟩
    intro x hx hx2
    simp only [List.mem_singleton] at hx2
    obtain ⟨r, hr, hrs⟩ := List.mem_map.mp hx
    rw [List.find?_eq_none] at hf
    exact absurd (hrs.trans hx2) (by simpa using hf r hr)

theorem rowsFor_upsert_other (st : ValidityStore) (w : DateValidity)
    (sup : Int) (hne : w.idProveedor ≠ sup) :
    rowsFor sup (upsertOne st w).1 = rowsFor sup st := by
  unfold upsertOne rowsFor
  cases hf : st.rows.find? (fun r => r.id_proveedor = w.idProveedor) with
  | some r0 =>
    simp only
    rw [filter_map_comm _ _ (fun r => by
      by_cases hr : r.id_proveedor = w.idProveedor <;> simp [hr])]
    have : ∀ r ∈ st.rows.filter (fun r => r.id_proveedor = sup),
        (if r.id_proveedor = w.idProveedor then
          { r with fecha_inicio := w.fecha_inicio, fecha_fin := w.fecha_fin }
         else r) = r := by
      intro r hr
      have hrs : r.id_proveedor = sup := by
        simpa using List.of_mem_filter hr
      rw [if_neg (by rw [hrs]; exact fun hcc => hne hcc.symm)]
    rw [List.map_congr_left this]
    simp
  | none =>
    simp only
    rw [List.filter_append]
    simp [hne]

theorem rowsFor_upsert_self (st : ValidityStore) (w : DateValidity)
    (h : suppliersNodup st) :
    ∃ rid, rowsFor w.idProveedor (upsertOne st w).1 =
      [⟨rid, w.idProveedor, w.fecha_inicio, w.fecha_fin⟩] := by
  unfold upsertOne rowsFor
  cases hf : st.rows.find? (fun r => r.id_proveedor = w.idProveedor) with
  | some r0 =>
    have hr0m := List.mem_of_find?_eq_some hf
    have hr0s : r0.id_proveedor = w.idProveedor := by
      simpa using List.find?_some hf
    refine ⟨r0.id, ?_⟩
    simp only
    rw [filter_map_comm _ _ (fun r => by
      by_cases hr : r.id_proveedor = w.idProveedor <;> simp [hr])]
    have hnodup : (st.rows.map (fun r => r.id_proveedor)).Nodup := h
    rw [nodup_filter_eq_singleton (fun r => r.id_proveedor) w.idProveedor
      st.rows hnodup r0 hr0m hr0s]
    simp [hr0s]
  | none =>
    refine ⟨st.nextId, ?_⟩
    simp only
    rw [List.filter_append]
    have hnil : st.rows.filter (fun r => r.id_proveedor = w.idProveedor) = [] := by
      rw [List.filter_eq_nil_iff]
      intro x hx
      simpa using (List.find?_eq_none.mp hf) x hx
    rw [hnil]
    simp

theorem applyWindows_frame (sup : Int) (ws : List DateValidity) :
    ∀ st : ValidityStore, (∀ v ∈ ws, v.idProveedor ≠ sup) →
      rowsFor sup (applyWindows st ws) = rowsFor sup st := by
  induction ws with
  | nil => intro st _; rfl
  | cons w rest ih =>
    intro st hws
    rw [applyWindows_cons, ih _ (fun v hv => hws v (List.mem_cons_of_mem w hv)),
      rowsFor_upsert_other st w sup (hws w (List.mem_cons_self w rest))]

/-- C5.  Starting from a validity table with at most one row per supplier,
any sequence of upserted windows preserves that invariant, and the row
stored for a supplier carries exactly the dates of the most recently
upserted window for that supplier (last writer wins, no history kept). -/
theorem upsertValidity_last_writer_wins (st : ValidityStore)
    (ws : List DateValidity) (h : suppliersNodup st) :
    suppliersNodup (applyWindows st ws) ∧
    ∀ sup w, lastFor sup ws = some w →
      ∃ rid, rowsFor sup (applyWindows st ws) =
        [⟨rid, sup, w.fecha_inicio, w.fecha_fin⟩] := by
  induction ws generalizing st with
  | nil =>
    exact ⟨h, fun sup w hl => by simp [lastFor] at hl⟩
  | cons w0 rest ih =>
    have h2 := upsertOne_nodup st w0 h
    obtain ⟨hnd, hspec⟩ := ih (upsertOne st w0).1 h2
    refine ⟨by rwa [applyWindows_cons], ?_⟩
    intro sup w hl
    rw [applyWindows_cons]
    unfold lastFor at hl
    rw [List.filter_cons] at hl
    by_cases hsup : w0.idProveedor = sup
    · rw [if_pos (by simpa using hsup)] at hl
      cases hrest : rest.filter (fun v => v.idProveedor = sup) with
      | nil =>
        rw [hrest] at hl
        have hw : w = w0 := by simpa using hl.symm
        rw [hw]
        have hnolater : ∀ v ∈ rest, v.idProveedor ≠ sup := by
          intro v hv
          have := List.filter_eq_nil_iff.mp hrest v hv
          simpa using this
        rw [applyWindows_frame sup rest _ hnolater]
        obtain ⟨rid, hr⟩ := rowsFor_upsert_self st w0 h
        exact ⟨rid, by rwa [hsup] at hr⟩
      | cons x xs =>
        rw [hrest] at hl
        rw [List.getLast?_cons_cons] at hl
        exact hspec sup w (by unfold lastFor; rwa [hrest])
    · rw [if_neg (by simpa using hsup)] at hl
      exact hspec sup w hl

/-- C5 witness: upserting two windows for supplier 100 with different end
dates, starting from the empty table. -/
theorem upsertValidity_last_writer_wins_witness :
    suppliersNodup ⟨[], 1⟩ ∧
    lastFor 100 [⟨1, 100, "2024-01-01", "2024-12-31"⟩,
      ⟨2, 100, "2024-01-01", "2025-06-30"⟩] =
      some ⟨2, 100, "2024-01-01", "2025-06-30"⟩ ∧
    ∃ rid, rowsFor 100 (applyWindows ⟨[], 1⟩
        [⟨1, 100, "2024-01-01", "2024-12-31"⟩,
         ⟨2, 100, "2024-01-01", "2025-06-30"⟩]) =
      [⟨rid, 100, "2024-01-01", "2025-06-30"⟩] := by
  refine ⟨by simp [suppliersNodup], by decide, ?_⟩
  exact (upsertValidity_last_writer_wins ⟨[], 1⟩
      [⟨1, 100, "2024-01-01", "2024-12-31"⟩, ⟨2, 100, "2024-01-01", "2025-06-30"⟩]
      (by simp [suppliersNodup])).2 100
    ⟨2, 100, "2024-01-01", "2025-06-30"⟩ (by decide)

/-! ## C4: conditional update counts exactly the rows that differ -/

/-- Claim-side predicate: some stored row has the patch's id and a triple
that IS DISTINCT FROM the proposed values. -/
def patchEffective (rows : List PriceRow) (p : UpdatePatch) : Bool :=
  rows.any (rowMatches p)

theorem any_congr {α : Type} {f g : α → Bool} :
    ∀ l : List α, (∀ a ∈ l, f a = g a) → l.any f = l.any g := by
  intro l
  induction l with
  | nil => intro _; rfl
  | cons a t ih =>
    intro h
    simp only [List.any_cons, h a (List.mem_cons_self a t),
      ih (fun b hb => h b (List.mem_cons_of_mem a hb))]

theorem applyPatch_id (clock : ℕ) (p : UpdatePatch) (r : PriceRow) :
    (applyPatch clock p r).id = r.id := by
  unfold applyPatch
  split <;> rfl

/-- A patch with a different id neither creates nor destroys a match for
another patch: the conditional update touches only its own row. -/
theorem patchEffective_stable (clock : ℕ) (rows : List PriceRow)
    (p q : UpdatePatch) (hne : q.id ≠ p.id) :
    patchEffective (rows.map (applyPatch clock p)) q = patchEffective rows q := by
  unfold patchEffective
  rw [List.any_map]
  apply any_congr
  intro r _
  simp only [Function.comp]
  by_cases hm : rowMatches p r
  · have hid : p.id = some (r.id : ℚ) := by
      have := (Bool.and_eq_true _ _).mp hm
      simpa [idMatches] using this.1
    have hq : idMatches r.id q.id = false := by
      simp only [idMatches]
      rw [← hid]
      simpa using hne
    unfold rowMatches
    rw [applyPatch_id, hq]
    simp
  · unfold applyPatch
    rw [if_neg hm]

theorem updateLoop_count (clock : ℕ) (data : List UpdatePatch) :
    ∀ rows : List PriceRow, (data.map (fun p => p.id)).Nodup →
      (updateLoop clock rows data).2.1 =
        (data.filter (patchEffective rows)).length := by
  induction data with
  | nil => intro rows _; rfl
  | cons p ps ih =>
    intro rows hnd
    simp only [List.map_cons, List.nodup_cons] at hnd
    have hstep : ∀ q ∈ ps, patchEffective (rows.map (applyPatch clock p)) q =
        patchEffective rows q := by
      intro q hq
      exact patchEffective_stable clock rows p q
        (fun hcc => hnd.1 (hcc ▸ List.mem_map_of_mem (fun v => v.id) hq))
    rw [updateLoop, List.filter_cons]
    simp only
    rw [ih (rows.map (applyPatch clock p)) hnd.2,
      List.filter_congr hstep]
    by_cases hp : rows.any (rowMatches p)
    · rw [if_pos hp, if_pos (by simpa [patchEffective] using hp)]
      simp [Nat.add_comm]
    · rw [if_neg hp, if_neg (by simpa [patchEffective] using hp)]
      simp

/-- C4.  For patch batches with pairwise-distinct target ids,
`updateListPrice` reports `updatedCount` equal to the number of patches
whose target row exists in the store with a triple that differs null-safely
from the proposed values; with a non-empty batch the message is the
"no changes" text exactly when that count is zero and the success summary
otherwise, and the empty batch short-circuits with the "no data" result. -/
theorem updateListPrice_count_and_message (st : PriceStore)
    (data : List UpdatePatch) (hids : (data.map (fun p => p.id)).Nodup) :
    (updateListPrice st data).2.updatedCount =
      (data.filter (patchEffective st.rows)).length ∧
    (data ≠ [] → ((updateListPrice st data).2.updatedCount = 0 →
      (updateListPrice st data).2.message =
        "No se modificaron registros (los valores eran iguales)") ∧
      ((updateListPrice st data).2.updatedCount ≠ 0 →
      (updateListPrice st data).2.message =
        toString (updateListPrice st data).2.updatedCount ++
          " registros actualizados correctamente")) ∧
    (data = [] → updateListPrice st data =
      (st, ⟨0, [], "No se proporcionaron datos para actualizar"⟩)) := by
  cases hdata : data with
  | nil =>
    refine ⟨rfl, fun hne => absurd rfl hne, fun _ => rfl⟩
  | cons p ps =>
    have hcount := updateLoop_count st.clock (p :: ps) st.rows (hdata ▸ hids)
    have hne : ((p :: ps : List UpdatePatch).isEmpty) = false := rfl
    refine ⟨?_, ?_, fun hcc => by cases hcc⟩
    · show (updateListPrice st (p :: ps)).2.updatedCount = _
      unfold updateListPrice
      rw [hne]
      simpa using hcount
    · intro _
      constructor
      · intro hz
        revert hz
        show (updateListPrice st (p :: ps)).2.updatedCount = 0 → _
        unfold updateListPrice
        rw [hne]
        simp only [Bool.false_eq_true, if_false]
        intro hz
        rw [if_pos hz]
      · intro hz
        revert hz
        show (updateListPrice st (p :: ps)).2.updatedCount ≠ 0 → _
        unfold updateListPrice
        rw [hne]
        simp only [Bool.false_eq_true, if_false]
        intro hz
        rw [if_neg hz]

/-- C4 counterexample.  A batch of two identical changing patches for the
same row id: the second `UPDATE` of the transaction sees the first one's
write, so its `IS DISTINCT FROM` predicate no longer matches and the code
returns `updatedCount = 1`, while both patches' proposals differ from the
row as stored before the call, so the claimed count over the stored values
is `2`. -/
theorem updateListPrice_duplicate_id_count_diverges :
    (updateListPrice ⟨[⟨1, "A", none, some (.val 100), some (.val 10),
        some (.val 0), none, 0⟩], 2, 5⟩
      [⟨some 1, some (some 99), some (some 10), some (some 0)⟩,
       ⟨some 1, some (some 99), some (some 10), some (some 0)⟩]).2.updatedCount = 1 ∧
    (([⟨some 1, some (some 99), some (some 10), some (some 0)⟩,
       ⟨some 1, some (some 99), some (some 10), some (some 0)⟩] :
        List UpdatePatch).filter
      (patchEffective [⟨1, "A", none, some (.val 100), some (.val 10),
        some (.val 0), none, 0⟩])).length = 2 ∧
    (1 : ℕ) ≠ 2 :=
  ⟨by decide, by decide, by decide⟩

/-- C4 witness: a two-patch batch against a one-row store where only the
first patch changes anything (the second proposes the already-stored
values), yielding count 1 and the success message; plus the no-change and
empty-batch cases. -/
theorem updateListPrice_count_and_message_witness :
    ((updateListPrice ⟨[⟨1, "A", none, some (.val 100), some (.val 10),
        some (.val 0), none, 0⟩], 2, 5⟩
      [⟨some 1, some (some 99), some (some 10), some (some 0)⟩,
       ⟨some 7, some (some 1), some (some 2), some (some 3)⟩]).2.updatedCount =
      (([⟨some 1, some (some 99), some (some 10), some (some 0)⟩,
        ⟨some 7, some (some 1), some (some 2), some (some 3)⟩] :
          List UpdatePatch).filter
        (patchEffective [⟨1, "A", none, some (.val 100), some (.val 10),
          some (.val 0), none, 0⟩])).length) ∧
    (updateListPrice ⟨[⟨1, "A", none, some (.val 100), some (.val 10),
        some (.val 0), none, 0⟩], 2, 5⟩
      [⟨some 1, some (some 100), some (some 10), some (some 0)⟩]).2.message =
      "No se modificaron registros (los valores eran iguales)" ∧
    (updateListPrice ⟨[⟨1, "A", none, some (.val 100), some (.val 10),
        some (.val 0), none, 0⟩], 2, 5⟩ []).2 =
      ⟨0, [], "No se proporcionaron datos para actualizar"⟩ := by
  have h1 := updateListPrice_count_and_message
    ⟨[⟨1, "A", none, some (.val 100), some (.val 10), some (.val 0), none, 0⟩], 2, 5⟩
    [⟨some 1, some (some 99), some (some 10), some (some 0)⟩,
     ⟨some 7, some (some 1), some (some 2), some (some 3)⟩] (by decide)
  have h2 := updateListPrice_count_and_message
    ⟨[⟨1, "A", none, some (.val 100), some (.val 10), some (.val 0), none, 0⟩], 2, 5⟩
    [⟨some 1, some (some 100), some (some 10), some (some 0)⟩] (by decide)
  refine ⟨h1.1, ?_, by decide⟩
  exact (h2.2.1 (by decide)).1 (by decide)

/-! ## C9: idempotence of validation plus normalization -/

theorem validateCodProv_trim (s : String) :
    validateCodProv (jsTrim s) = validateCodProv s := by
  unfold validateCodProv
  simp only [jsTrim, trimList_idem]

theorem validateCodSap_trim (s : String) :
    validateCodSap (jsTrim s) = validateCodSap s := by
  unfold validateCodSap
  simp only [jsTrim, trimList_idem]

theorem validateDescrip_trim (s : String) :
    validateDescrip (jsTrim s) = validateDescrip s := by
  unfold validateDescrip
  simp only [jsTrim, trimList_idem]

theorem validateCodProv_ok_ne (s : String)
    (h : validateCodProv s = .ok ()) : jsTrim s ≠ "" := by
  unfold validateCodProv at h
  by_cases h0 : (trimList s.data).length = 0
  · rw [if_pos h0] at h; cases h
  · intro hcc
    have h2 : trimList s.data = [] := congrArg String.data hcc
    exact h0 (by rw [h2]; rfl)

/-- An accepted, normalized `COSTO_UNIT` number is non-negative. -/
theorem costo_nonneg (v : NumStrField) (q : ℚ)
    (hnorm : normalizeNumber v = some q)
    (hval : (if v.present then validateCostoUnit v else .ok ()) = .ok ()) :
    ¬q < 0 := by
  cases v with
  | undef => cases hnorm
  | null => cases hnorm
  | num q0 =>
    have hq : q0 = q := by simpa [normalizeNumber] using hnorm
    subst hq
    have hv := if_val_ok.mp hval rfl
    simp only [validateCostoUnit] at hv
    by_cases hq0 : q0 < 0
    · rw [if_pos hq0] at hv; cases hv
    · exact hq0
  | str s =>
    by_cases hs : s = ""
    · subst hs; simp [normalizeNumber] at hnorm
    · have hjs : jsNumberCore (trimList s.data) = some q := by
        simpa [normalizeNumber, hs, jsNumber] using hnorm
      have hv := if_val_ok.mp hval (by simp [NumStrField.present, hs])
      simp only [validateCostoUnit] at hv
      rw [stripCommas_of_jsNumberCore hjs, trimList_idem] at hv
      simp only [hjs] at hv
      by_cases hq0 : q < 0
      · rw [if_pos hq0] at hv; cases hv
      · exact hq0

/-- An accepted, normalized discount number satisfies the integer/range
checks. -/
theorem desc_checkValor (v : NumStrField) (campo : String) (q : ℚ)
    (hnorm : normalizeNumber v = some q)
    (hval : (if v.present then validateDescuento v campo else .ok ()) = .ok ()) :
    checkValor campo (some q) = .ok () := by
  cases v with
  | undef => cases hnorm
  | null => cases hnorm
  | num q0 =>
    have hq : q0 = q := by simpa [normalizeNumber] using hnorm
    subst hq
    exact if_val_ok.mp hval rfl
  | str s =>
    by_cases hs : s = ""
    · subst hs; simp [normalizeNumber] at hnorm
    · have hjs : jsNumberCore (trimList s.data) = some q := by
        simpa [normalizeNumber, hs, jsNumber] using hnorm
      have hv := if_val_ok.mp hval (by simp [NumStrField.present, hs])
      simp only [validateDescuento] at hv
      by_cases hint : intRe (trimList s.data)
      · rw [if_neg (by simpa using hint), trimList_idem, hjs] at hv
        exact hv
      · rw [if_pos (by simpa using hint)] at hv
        cases hv

/-- Re-normalizing an already-normalized record is the identity, provided
the normalized `COD_SAP` and `DESCRIP` are not empty strings. -/
theorem normalizeItem_inject (n : PriceListItemN)
    (hpv : jsTrim n.COD_PROV = n.COD_PROV)
    (hsap : n.COD_SAP ≠ some "")
    (hsap2 : ∀ s, n.COD_SAP = some s → jsTrim s = s)
    (hdes : n.DESCRIP ≠ some "")
    (hdes2 : ∀ s, n.DESCRIP = some s → jsTrim s = s) :
    normalizeItem (inject n) = n := by
  obtain ⟨pv, sap, des, cu, d1, d2, prov⟩ := n
  simp only [normalizeItem, inject] at *
  refine PriceListItemN.mk.injEq .. ▸ ?_
  refine ⟨hpv, ?_, ?_, ?_, ?_, ?_, rfl⟩
  · cases sap with
    | none => rfl
    | some s =>
      have hs : s ≠ "" := fun hcc => hsap (by rw [hcc])
      simp only [StrField.truthy, StrField.toStr]
      rw [if_pos (by simpa using hs)]
      rw [hsap2 s rfl]
  · cases des with
    | none => rfl
    | some s =>
      have hs : s ≠ "" := fun hcc => hdes (by rw [hcc])
      simp only [StrField.truthy, StrField.toStr]
      rw [if_pos (by simpa using hs)]
      rw [hdes2 s rfl]
  · cases cu with
    | none => rfl
    | some q => rfl
  · cases d1 with
    | none => rfl
    | some q => rfl
  · cases d2 with
    | none => rfl
    | some q => rfl

/-- C9 amended.  For every accepted record whose normalized `COD_SAP` and
`DESCRIP` are not empty strings (equivalently, whose raw values are not
whitespace-only non-empty strings), re-validating the `toObject()` output
succeeds and reproduces the same entity, so the second `toObject()` equals
the first. -/
theorem revalidation_idempotent_amended (r : RawPriceItem) (p : PriceList)
    (h : PriceList.construct r = .ok p)
    (hsap : p.toObject.COD_SAP ≠ some "")
    (hdes : p.toObject.DESCRIP ≠ some "") :
    PriceList.construct (inject p.toObject) = .ok p := by
  obtain ⟨h0, h1, h2, h3, h4, h5, h6, hp⟩ := (construct_ok_iff r p).mp h
  subst hp
  have hsap2 : (normalizeItem r).COD_SAP ≠ some "" := hsap
  have hdes2 : (normalizeItem r).DESCRIP ≠ some "" := hdes
  apply (construct_ok_iff _ _).mpr
  refine ⟨?_, ?_, ?_, ?_, ?_, ?_, ?_, ?_⟩
  · exact validateCodProv_ok_ne r.COD_PROV h1
  · exact (validateCodProv_trim r.COD_PROV).trans h1
  · cases hcs : r.COD_SAP with
    | undef =>
      simp [PriceList.toObject, inject, normalizeItem, hcs, StrField.truthy,
        StrField.present]
    | null =>
      simp [PriceList.toObject, inject, normalizeItem, hcs, StrField.truthy,
        StrField.present]
    | str s0 =>
      by_cases hs0 : s0 = ""
      · subst hs0
        simp [PriceList.toObject, inject, normalizeItem, hcs, StrField.truthy,
          StrField.present]
      · have hne2 : jsTrim s0 ≠ "" := by
          intro hl
          exact hsap2 (by
            simp [normalizeItem, hcs, StrField.truthy, StrField.toStr, hs0, hl])
        have hvs : validateCodSap s0 = .ok () := by
          have hv := if_val_ok.mp h2 (by rw [hcs]; simp [StrField.present, hs0])
          rwa [hcs] at hv
        simp [PriceList.toObject, inject, normalizeItem, hcs, StrField.truthy,
          StrField.present, StrField.toStr, hs0, hne2, validateCodSap_trim, hvs]
  · cases hcs : r.DESCRIP with
    | undef =>
      simp [PriceList.toObject, inject, normalizeItem, hcs, StrField.truthy,
        StrField.present]
    | null =>
      simp [PriceList.toObject, inject, normalizeItem, hcs, StrField.truthy,
        StrField.present]
    | str s0 =>
      by_cases hs0 : s0 = ""
      · subst hs0
        simp [PriceList.toObject, inject, normalizeItem, hcs, StrField.truthy,
          StrField.present]
      · have hne2 : jsTrim s0 ≠ "" := by
          intro hl
          exact hdes2 (by
            simp [normalizeItem, hcs, StrField.truthy, StrField.toStr, hs0, hl])
        have hvs : validateDescrip s0 = .ok () := by
          have hv := if_val_ok.mp h3 (by rw [hcs]; simp [StrField.present, hs0])
          rwa [hcs] at hv
        simp [PriceList.toObject, inject, normalizeItem, hcs, StrField.truthy,
          StrField.present, StrField.toStr, hs0, hne2, validateDescrip_trim, hvs]
  · cases hcu : normalizeNumber r.COSTO_UNIT with
    | none =>
      simp [PriceList.toObject, inject, normalizeItem, hcu, NumStrField.present]
    | some q =>
      have hnn := costo_nonneg r.COSTO_UNIT q hcu h4
      simp [PriceList.toObject, inject, normalizeItem, hcu, NumStrField.present,
        validateCostoUnit, hnn]
  · cases hd1 : normalizeNumber r.DESC1 with
    | none =>
      simp [PriceList.toObject, inject, normalizeItem, hd1, NumStrField.present]
    | some q =>
      have hcv := desc_checkValor r.DESC1 "DESC1" q hd1 h5
      simp [PriceList.toObject, inject, normalizeItem, hd1, NumStrField.present,
        validateDescuento, hcv]
  · cases hd2 : normalizeNumber r.DESC2 with
    | none =>
      simp [PriceList.toObject, inject, normalizeItem, hd2, NumStrField.present]
    | some q =>
      have hcv := desc_checkValor r.DESC2 "DESC2" q hd2 h6
      simp [PriceList.toObject, inject, normalizeItem, hd2, NumStrField.present,
        validateDescuento, hcv]
  · have hsap3 : ∀ s, (normalizeItem r).COD_SAP = some s → jsTrim s = s := by
      intro s hseq
      simp only [normalizeItem] at hseq
      by_cases ht : r.COD_SAP.truthy
      · rw [if_pos ht] at hseq
        rw [← Option.some.inj hseq]
        exact jsTrim_idem _
      · rw [if_neg ht] at hseq; cases hseq
    have hdes3 : ∀ s, (normalizeItem r).DESCRIP = some s → jsTrim s = s := by
      intro s hseq
      simp only [normalizeItem] at hseq
      by_cases ht : r.DESCRIP.truthy
      · rw [if_pos ht] at hseq
        rw [← Option.some.inj hseq]
        exact jsTrim_idem _
      · rw [if_neg ht] at hseq; cases hseq
    exact congrArg PriceList.mk (normalizeItem_inject (normalizeItem r)
      (jsTrim_idem r.COD_PROV) hsap2 hsap3 hdes2 hdes3).symm

/-- C9 witness: the theorem at a concrete accepted record with non-empty
`COD_SAP` and `DESCRIP`. -/
theorem revalidation_idempotent_amended_witness :
    PriceList.construct
        ⟨"AB12", .str "123", .str "Widget", .num 100, .num 10, .num 5,
          some (some 7)⟩ =
      .ok ⟨⟨"AB12", some "123", some "Widget", some 100, some 10, some 5, some 7⟩⟩ ∧
    (PriceList.toObject
        ⟨⟨"AB12", some "123", some "Widget", some 100, some 10, some 5,
          some 7⟩⟩).COD_SAP ≠ some "" ∧
    (PriceList.toObject
        ⟨⟨"AB12", some "123", some "Widget", some 100, some 10, some 5,
          some 7⟩⟩).DESCRIP ≠ some "" ∧
    PriceList.construct (inject (PriceList.toObject
        ⟨⟨"AB12", some "123", some "Widget", some 100, some 10, some 5,
          some 7⟩⟩)) =
      .ok ⟨⟨"AB12", some "123", some "Widget", some 100, some 10, some 5, some 7⟩⟩ :=
  ⟨by decide, by decide, by decide,
    revalidation_idempotent_amended
      ⟨"AB12", .str "123", .str "Widget", .num 100, .num 10, .num 5, some (some 7)⟩
      ⟨⟨"AB12", some "123", some "Widget", some 100, some 10, some 5, some 7⟩⟩
      (by decide) (by decide) (by decide)⟩

end GestionProveedores
